import Mathlib

/-!
# Shallow embedding of the Farmer Harvest game

Modelled from `src/farmer-game/Game.js`, `src/farmer-game/Farmer.js` and the
Crop / PowerUp / Scarecrow / Input classes that share the Farmer source file.

Modelling conventions:
* JS floating-point numbers are modelled as exact rationals (`ℚ`).
* Rendering state, the DOM/UI writes, and the purely cosmetic `sway` and
  `pulse` fields (read only by `draw`) are omitted from the state.
* `Math.random()` is modelled by an explicit list of rationals in `[0,1)`
  consumed from the front (`rnd`); an exhausted list yields `0`.
* `Math.sqrt (dx*dx + dy*dy) <= 80` is modelled as
  `dx*dx + dy*dy <= 80*80`, which is equivalent since both sides are
  nonnegative and squaring is monotone on nonnegatives.
* The JS `Map` in `Farmer.activePowerUps` is modelled as an association list
  in insertion order; `Map.set` is `setAssoc` (replace in place or append),
  and the `forEach`-with-deletion of `updatePowerUps` is modelled by the
  two-pass `tickEntries` followed by recomputing `speed` / `hasScythe` from
  the surviving entries in iteration order, which produces the same final
  field values as the in-loop mutation.
* The unbounded JS `while` spawn loops are modelled with an explicit fuel
  that upper-bounds the number of iterations (`cropSpawnFuel`,
  `powerUpSpawnFuel`); the loop guard is re-checked inside, so surplus fuel
  is inert.
-/

/-- Game.js `WIDTH` (logical playfield width). -/
def WIDTH : ℚ := 900

/-- Game.js `HEIGHT`. -/
def HEIGHT : ℚ := 540

/-- Game.js `TILE` (grid spacing). -/
def TILE : ℚ := 30

/-- Game.js `GAME_LEN` (seconds per round). -/
def GAME_LEN : ℚ := 60

/-- Game.js `GOAL` (points needed to win). -/
def GOAL : ℚ := 15

/-- Game.js `this.spawnEvery` (set in the constructor, never reassigned). -/
def spawnEvery : ℚ := 0.8

/-- Game.js `this.powerUpSpawnEvery` (set in the constructor, never reassigned). -/
def powerUpSpawnEvery : ℚ := 12

/-- Game.js `State` enumeration. -/
inductive State where
  | MENU
  | PLAYING
  | PAUSED
  | GAME_OVER
  | WIN
deriving DecidableEq

/-- An axis-aligned box, the `x`/`y`/`w`/`h` shape every entity carries. -/
structure Rect where
  x : ℚ
  y : ℚ
  w : ℚ
  h : ℚ
deriving DecidableEq

/-- Farmer.js `clamp`. -/
def clamp (v lo hi : ℚ) : ℚ := min hi (max lo v)

/-- Farmer.js `aabb`: strict axis-aligned bounding-box overlap test. -/
def aabb (a b : Rect) : Bool :=
  decide (a.x < b.x + b.w) && decide (a.x + a.w > b.x) &&
  decide (a.y < b.y + b.h) && decide (a.y + a.h > b.y)

/-- Crop rarity kinds (`"wheat"`, `"pumpkin"`, `"goldenApple"`). -/
inductive CropType where
  | wheat
  | pumpkin
  | goldenApple
deriving DecidableEq

/-- One entry of `Crop.cropData`. -/
structure CropData where
  value : ℚ
  size : ℚ
  stemColor : String
  headColor : String
deriving DecidableEq

/-- Crop.js `cropData` table. -/
def cropData : CropType → CropData
  | .wheat => ⟨1, 8, "#2f7d32", "#d9a441"⟩
  | .pumpkin => ⟨3, 12, "#4a7c59", "#ff6f00"⟩
  | .goldenApple => ⟨5, 10, "#2f7d32", "#ffd700"⟩

/-- A collectible crop.  The JS object also stores `data` and `value`, both
functions of `type` (with the `|| wheat` fallback unreachable for enum
types); they are exposed as `Crop.data` and `Crop.value` below. -/
structure Crop where
  x : ℚ
  y : ℚ
  w : ℚ
  h : ℚ
  type : CropType
  dead : Bool
deriving DecidableEq

/-- The Crop constructor: `super(x, y, 20, 26)`, alive. -/
def Crop.new (x y : ℚ) (t : CropType) : Crop := ⟨x, y, 20, 26, t, false⟩

def Crop.data (c : Crop) : CropData := cropData c.type

def Crop.value (c : Crop) : ℚ := (cropData c.type).value

def Crop.rect (c : Crop) : Rect := ⟨c.x, c.y, c.w, c.h⟩

/-- Power-up kinds (`"speed"`, `"scythe"`). -/
inductive PUType where
  | speed
  | scythe
deriving DecidableEq

/-- One entry of `PowerUp.powerData` (the `color` string is render-only and
omitted).  A field the JS code never reads for that kind (`range` for speed,
`multiplier` for scythe, both `undefined` in JS) is set to `0` and never
consulted. -/
structure PUData where
  effect : String
  multiplier : ℚ
  range : ℚ
deriving DecidableEq

/-- Crop.js `powerData` table. -/
def powerData : PUType → PUData
  | .speed => ⟨"Speed Boost", 1.8, 0⟩
  | .scythe => ⟨"Scythe", 0, 80⟩

/-- A power-up pickup; the constructor is `super(x, y, 24, 24)` with
`duration = 8`. -/
structure PowerUp where
  x : ℚ
  y : ℚ
  w : ℚ
  h : ℚ
  type : PUType
  duration : ℚ
  dead : Bool
deriving DecidableEq

def PowerUp.new (x y : ℚ) (t : PUType) : PowerUp := ⟨x, y, 24, 24, t, 8, false⟩

def PowerUp.data (p : PowerUp) : PUData := powerData p.type

def PowerUp.rect (p : PowerUp) : Rect := ⟨p.x, p.y, p.w, p.h⟩

/-- Static obstacle; constructor is `super(x, y, 26, 46)`. -/
structure Scarecrow where
  x : ℚ
  y : ℚ
  w : ℚ
  h : ℚ
deriving DecidableEq

def Scarecrow.new (x y : ℚ) : Scarecrow := ⟨x, y, 26, 46⟩

def Scarecrow.rect (o : Scarecrow) : Rect := ⟨o.x, o.y, o.w, o.h⟩

/-- Value stored in the `activePowerUps` map: `{ timeLeft, data }`. -/
structure ActivePU where
  timeLeft : ℚ
  data : PUData
deriving DecidableEq

/-- The player.  Constructor: `super(x, y, 34, 34)`, `baseSpeed = 260`,
`speed = baseSpeed`, zero velocity, empty power-up map, `hasScythe = false`. -/
structure Farmer where
  x : ℚ
  y : ℚ
  w : ℚ
  h : ℚ
  baseSpeed : ℚ
  speed : ℚ
  vx : ℚ
  vy : ℚ
  activePowerUps : List (PUType × ActivePU)
  hasScythe : Bool
deriving DecidableEq

def Farmer.new (x y : ℚ) : Farmer :=
  { x := x, y := y, w := 34, h := 34, baseSpeed := 260, speed := 260,
    vx := 0, vy := 0, activePowerUps := [], hasScythe := false }

def Farmer.rect (f : Farmer) : Rect := ⟨f.x, f.y, f.w, f.h⟩

/-- Input state: the set of currently-held key names. -/
structure Input where
  keys : List String
deriving DecidableEq

/-- JS coercion of a boolean to a number (`R - L` on booleans). -/
def boolNum (b : Bool) : ℚ := if b then 1 else 0

/-- Farmer.handleInput: derive `vx`/`vy` from the held keys and the
current `speed` field. -/
def Farmer.handleInput (f : Farmer) (input : Input) : Farmer :=
  { f with
    vx := (boolNum (input.keys.contains "ArrowRight") -
           boolNum (input.keys.contains "ArrowLeft")) * f.speed,
    vy := (boolNum (input.keys.contains "ArrowDown") -
           boolNum (input.keys.contains "ArrowUp")) * f.speed }

/-- First pass of Farmer.updatePowerUps: tick every timer down by `dt` and
drop the entries whose timer has reached zero, preserving iteration order. -/
def tickEntries (dt : ℚ) : List (PUType × ActivePU) → List (PUType × ActivePU)
  | [] => []
  | (ty, pu) :: rest =>
    if pu.timeLeft - dt ≤ 0 then tickEntries dt rest
    else (ty, { pu with timeLeft := pu.timeLeft - dt }) :: tickEntries dt rest

/-- Farmer.updatePowerUps: reset `speed`/`hasScythe` to their base values,
then tick the map and re-apply the effect of each surviving entry in
iteration order. -/
def Farmer.updatePowerUps (f : Farmer) (dt : ℚ) : Farmer :=
  let entries := tickEntries dt f.activePowerUps
  { f with
    activePowerUps := entries,
    speed := entries.foldl
      (fun sp e =>
        match e.1 with
        | PUType.speed => f.baseSpeed * e.2.data.multiplier
        | PUType.scythe => sp) f.baseSpeed,
    hasScythe := entries.any (fun e => e.1 == PUType.scythe) }

/-- Farmer.update: recompute power-ups, move (clamped to the playfield),
and revert both coordinates when the new position overlaps any obstacle. -/
def Farmer.update (f : Farmer) (dt : ℚ) (obstacles : List Scarecrow) : Farmer :=
  let fm := f.updatePowerUps dt
  let moved := { fm with
    x := clamp (fm.x + fm.vx * dt) 0 (WIDTH - fm.w),
    y := clamp (fm.y + fm.vy * dt) 0 (HEIGHT - fm.h) }
  if obstacles.any (fun o => aabb moved.rect o.rect) then
    { moved with x := fm.x, y := fm.y }
  else moved

/-- JS `Map.set`: replace the value of an existing key in place, else append. -/
def setAssoc (k : PUType) (v : ActivePU) :
    List (PUType × ActivePU) → List (PUType × ActivePU)
  | [] => [(k, v)]
  | (k2, v2) :: rest =>
    if k2 = k then (k, v) :: rest else (k2, v2) :: setAssoc k v rest

/-- Farmer.addPowerUp: store `{ timeLeft := duration, data }` under the
power-up's type, replacing any previous entry of the same type. -/
def Farmer.addPowerUp (f : Farmer) (p : PowerUp) : Farmer :=
  { f with activePowerUps :=
      setAssoc p.type { timeLeft := p.duration, data := p.data } f.activePowerUps }

/-- Floating `+points` effect (`this.pointTexts` elements). -/
structure PointText where
  x : ℚ
  y : ℚ
  points : ℚ
  life : ℚ
  color : String
deriving DecidableEq

/-- The Game orchestrator state.  `lastTime` (wall-clock bookkeeping of the
requestAnimationFrame loop), the canvas/ctx handles and the UI element
references are outside the simulation model. -/
structure Game where
  state : State
  player : Farmer
  crops : List Crop
  powerUps : List PowerUp
  obstacles : List Scarecrow
  pointTexts : List PointText
  timeLeft : ℚ
  accumSpawn : ℚ
  accumPowerUpSpawn : ℚ
  score : ℚ
  goal : ℚ
  input : Input
deriving DecidableEq

/-- Game.reset: back to MENU with fresh entities, zero score, full timer,
zero spawn accumulators and the fixed two scarecrows. -/
def Game.reset (g : Game) : Game :=
  { g with
    state := State.MENU,
    player := Farmer.new (WIDTH / 2 - 17) (HEIGHT - 80),
    crops := [],
    powerUps := [],
    obstacles := [Scarecrow.new 200 220, Scarecrow.new 650 160],
    pointTexts := [],
    score := 0,
    timeLeft := GAME_LEN,
    accumSpawn := 0,
    accumPowerUpSpawn := 0 }

/-- Game.start: from MENU / GAME_OVER / WIN, reset then play; from PAUSED,
resume; otherwise (PLAYING) do nothing. -/
def Game.start (g : Game) : Game :=
  if g.state = State.MENU ∨ g.state = State.GAME_OVER ∨ g.state = State.WIN then
    { g.reset with state := State.PLAYING }
  else if g.state = State.PAUSED then
    { g with state := State.PLAYING }
  else g

/-- Game.togglePause. -/
def Game.togglePause (g : Game) : Game :=
  if g.state = State.PLAYING then { g with state := State.PAUSED }
  else if g.state = State.PAUSED then { g with state := State.PLAYING }
  else g

/-- Consume one `Math.random()` value from the oracle list. -/
def rnd : List ℚ → ℚ × List ℚ
  | [] => (0, [])
  | r :: rs => (r, rs)

/-- Game.spawnCrop: grid-aligned random position, rarity by thresholds
0.7 / 0.9, pushed at the end of `crops`. -/
def Game.spawnCrop (g : Game) (rs : List ℚ) : Game × List ℚ :=
  let p1 := rnd rs
  let p2 := rnd p1.2
  let p3 := rnd p2.2
  let gx : ℚ := (⌊p1.1 * ((WIDTH - 2 * TILE) / TILE)⌋ : ℚ) * TILE + TILE
  let gy : ℚ := (⌊p2.1 * ((HEIGHT - 2 * TILE) / TILE)⌋ : ℚ) * TILE + TILE
  let cropType :=
    if p3.1 < 0.7 then CropType.wheat
    else if p3.1 < 0.9 then CropType.pumpkin
    else CropType.goldenApple
  ({ g with crops := g.crops ++ [Crop.new gx gy cropType] }, p3.2)

/-- Game.spawnPowerUp: grid-aligned random position, uniform kind from
`["speed", "scythe"]`. -/
def Game.spawnPowerUp (g : Game) (rs : List ℚ) : Game × List ℚ :=
  let p1 := rnd rs
  let p2 := rnd p1.2
  let p3 := rnd p2.2
  let gx : ℚ := (⌊p1.1 * ((WIDTH - 2 * TILE) / TILE)⌋ : ℚ) * TILE + TILE
  let gy : ℚ := (⌊p2.1 * ((HEIGHT - 2 * TILE) / TILE)⌋ : ℚ) * TILE + TILE
  let ty := [PUType.speed, PUType.scythe].getD (⌊p3.1 * 2⌋).toNat PUType.speed
  ({ g with powerUps := g.powerUps ++ [PowerUp.new gx gy ty] }, p3.2)

/-- Fuel bounding the iterations of the crop-spawn `while` loop. -/
def cropSpawnFuel (a : ℚ) : ℕ := (⌊a / spawnEvery⌋).toNat + 1

/-- Fuel bounding the iterations of the power-up-spawn `while` loop. -/
def powerUpSpawnFuel (a : ℚ) : ℕ := (⌊a / powerUpSpawnEvery⌋).toNat + 1

/-- `while (accumSpawn >= spawnEvery) { accumSpawn -= spawnEvery; spawnCrop() }`. -/
def Game.runCropSpawns : ℕ → Game × List ℚ → Game × List ℚ
  | 0, p => p
  | n + 1, (g, rs) =>
    if spawnEvery ≤ g.accumSpawn then
      Game.runCropSpawns n
        (Game.spawnCrop { g with accumSpawn := g.accumSpawn - spawnEvery } rs)
    else (g, rs)

/-- The analogous power-up spawn loop. -/
def Game.runPowerUpSpawns : ℕ → Game × List ℚ → Game × List ℚ
  | 0, p => p
  | n + 1, (g, rs) =>
    if powerUpSpawnEvery ≤ g.accumPowerUpSpawn then
      Game.runPowerUpSpawns n
        (Game.spawnPowerUp
          { g with accumPowerUpSpawn := g.accumPowerUpSpawn - powerUpSpawnEvery } rs)
    else (g, rs)

/-- The spawning section of Game.update: accumulate `dt` into each spawn
accumulator and drain it by whole intervals. -/
def Game.spawnPhase (g : Game) (dt : ℚ) (rs : List ℚ) : Game × List ℚ :=
  let g1 := { g with accumSpawn := g.accumSpawn + dt }
  let p1 := Game.runCropSpawns (cropSpawnFuel g1.accumSpawn) (g1, rs)
  let g2 := { p1.1 with accumPowerUpSpawn := p1.1.accumPowerUpSpawn + dt }
  Game.runPowerUpSpawns (powerUpSpawnFuel g2.accumPowerUpSpawn) (g2, p1.2)

/-- The scythe-range test of Game.update (`Math.sqrt(dx*dx+dy*dy) <= 80`,
squared on both sides). -/
def inScytheRange (p : Farmer) (c : Crop) : Bool :=
  let dx := (p.x + p.w / 2) - (c.x + c.w / 2)
  let dy := (p.y + p.h / 2) - (c.y + c.h / 2)
  decide (dx * dx + dy * dy ≤ 80 * 80)

/-- The per-crop collection test the frame uses for a given player. -/
def collectPred (p : Farmer) (c : Crop) : Bool :=
  if p.hasScythe then inScytheRange p c else aabb p.rect c.rect

/-- The `collectedCrops` list of Game.update: radius filter with a scythe,
box-overlap filter otherwise. -/
def Game.collectCrops (p : Farmer) (crops : List Crop) : List Crop :=
  if p.hasScythe then crops.filter (fun c => inScytheRange p c)
  else crops.filter (fun c => aabb p.rect c.rect)

/-- `collectedCrops.reduce((sum, c) => sum + c.value, 0)`. -/
def cropSum (l : List Crop) : ℚ := l.foldl (fun s c => s + c.value) 0

/-- Crop-collection section of Game.update: mark collected crops dead, push
a floating text per crop, add the summed value to the score, and transition
to WIN as soon as the score meets the goal. -/
def Game.collectPhase (g : Game) : Game :=
  let collected := Game.collectCrops g.player g.crops
  if collected = [] then g
  else
    let g2 : Game := { g with
      crops := g.crops.map
        (fun c => if collectPred g.player c then { c with dead := true } else c),
      pointTexts := g.pointTexts ++ collected.map
        (fun c =>
          ({ x := c.x + c.w / 2, y := c.y, points := c.value, life := 1,
             color := (cropData c.type).headColor } : PointText)),
      score := g.score + cropSum collected }
    if g2.goal ≤ g2.score then { g2 with state := State.WIN } else g2

/-- Power-up pickup section of Game.update: mark overlapped power-ups dead
and fold them into the player's active map. -/
def Game.powerUpPhase (g : Game) : Game :=
  let collected := g.powerUps.filter (fun p => aabb g.player.rect p.rect)
  if collected = [] then g
  else
    { g with
      powerUps := g.powerUps.map
        (fun p => if aabb g.player.rect p.rect then { p with dead := true } else p),
      player := collected.foldl Farmer.addPowerUp g.player }

/-- Cleanup section of Game.update: drop dead crops/power-ups (their
remaining `update(dt)` tick is the cosmetic sway/pulse, not modelled) and
age the floating texts. -/
def Game.cleanupPhase (g : Game) (dt : ℚ) : Game :=
  let g1 : Game := { g with
    crops := g.crops.filter (fun c => !c.dead),
    powerUps := g.powerUps.filter (fun p => !p.dead) }
  let aged := g1.pointTexts.map
    (fun pt => { pt with life := pt.life - dt * 2, y := pt.y - dt * 30 })
  { g1 with pointTexts := aged.filter (fun pt => decide (0 < pt.life)) }

/-- Player input + movement section of Game.update. -/
def Game.stepPlayer (g : Game) (dt : ℚ) : Game :=
  { g with player := (g.player.handleInput g.input).update dt g.obstacles }

/-- Everything Game.update does after the timer has been advanced and found
still positive. -/
def Game.simFrame (g : Game) (dt : ℚ) (rs : List ℚ) : Game × List ℚ :=
  let g1 := Game.stepPlayer g dt
  let p1 := Game.spawnPhase g1 dt rs
  let g2 := Game.collectPhase p1.1
  let g3 := Game.powerUpPhase g2
  (Game.cleanupPhase g3 dt, p1.2)

/-- Game.update: no-op outside PLAYING; advance the clamped countdown and
resolve WIN / GAME_OVER when it reaches zero (skipping the rest of the
frame); otherwise run the simulation frame. -/
def Game.update (g : Game) (dt : ℚ) (rs : List ℚ) : Game × List ℚ :=
  if g.state ≠ State.PLAYING then (g, rs)
  else
    let g1 := { g with timeLeft := clamp (g.timeLeft - dt) 0 GAME_LEN }
    if g1.timeLeft ≤ 0 then
      ({ g1 with state := if g1.goal ≤ g1.score then State.WIN else State.GAME_OVER }, rs)
    else Game.simFrame g1 dt rs

/-- Iterated frame updates, each with its own elapsed time and random
oracle. -/
def Game.runFrames (g : Game) (frames : List (ℚ × List ℚ)) : Game :=
  frames.foldl (fun a fr => (Game.update a fr.1 fr.2).1) g

/-- The position a PLAYING frame gives the player, computed directly from
the speed field the frame starts with: `handleInput` (which reads `speed`)
runs before `updatePowerUps` (which rewrites it), so the displacement uses
the previous frame's recomputed speed. -/
def movedPos (p : Farmer) (input : Input) (obstacles : List Scarecrow) (dt : ℚ) :
    ℚ × ℚ :=
  let vx := (boolNum (input.keys.contains "ArrowRight") -
             boolNum (input.keys.contains "ArrowLeft")) * p.speed
  let vy := (boolNum (input.keys.contains "ArrowDown") -
             boolNum (input.keys.contains "ArrowUp")) * p.speed
  let nx := clamp (p.x + vx * dt) 0 (WIDTH - p.w)
  let ny := clamp (p.y + vy * dt) 0 (HEIGHT - p.h)
  if obstacles.any (fun o => aabb ⟨nx, ny, p.w, p.h⟩ o.rect) then (p.x, p.y)
  else (nx, ny)

/-- The clamped position proposed by a Farmer.update move, as a box. -/
def proposedMove (f : Farmer) (dt : ℚ) : Rect :=
  ⟨clamp (f.x + f.vx * dt) 0 (WIDTH - f.w),
   clamp (f.y + f.vy * dt) 0 (HEIGHT - f.h), f.w, f.h⟩

/-! ## Basic facts about the embedded operations -/

theorem aabb_iff (a b : Rect) :
    aabb a b = true ↔
      a.x < b.x + b.w ∧ a.x + a.w > b.x ∧ a.y < b.y + b.h ∧ a.y + a.h > b.y := by
  simp [aabb, and_assoc]

theorem aabb_false_iff (a b : Rect) :
    aabb a b = false ↔
      ¬(a.x < b.x + b.w ∧ a.x + a.w > b.x ∧ a.y < b.y + b.h ∧ a.y + a.h > b.y) := by
  rw [← aabb_iff]
  cases aabb a b <;> simp

theorem clamp_of_nonpos {v : ℚ} (h : v ≤ 0) : clamp v 0 GAME_LEN = 0 := by
  have h60 : (0 : ℚ) ≤ GAME_LEN := by norm_num [GAME_LEN]
  simp [clamp, max_eq_left h, min_eq_right h60]

theorem clamp_pos_of_pos {v : ℚ} (h : 0 < v) : 0 < clamp v 0 GAME_LEN := by
  have h60 : (0 : ℚ) < GAME_LEN := by norm_num [GAME_LEN]
  exact lt_min h60 (lt_max_of_lt_right h)

theorem clamp_eq_max {v : ℚ} (h : v ≤ GAME_LEN) : clamp v 0 GAME_LEN = max 0 v := by
  refine min_eq_right (max_le ?_ h)
  norm_num [GAME_LEN]

theorem handleInput_fields (f : Farmer) (i : Input) :
    (f.handleInput i).x = f.x ∧ (f.handleInput i).y = f.y ∧
    (f.handleInput i).w = f.w ∧ (f.handleInput i).h = f.h ∧
    (f.handleInput i).speed = f.speed ∧ (f.handleInput i).baseSpeed = f.baseSpeed ∧
    (f.handleInput i).activePowerUps = f.activePowerUps ∧
    (f.handleInput i).hasScythe = f.hasScythe :=
  ⟨rfl, rfl, rfl, rfl, rfl, rfl, rfl, rfl⟩

theorem handleInput_vx (f : Farmer) (i : Input) :
    (f.handleInput i).vx =
      (boolNum (i.keys.contains "ArrowRight") - boolNum (i.keys.contains "ArrowLeft")) * f.speed :=
  rfl

theorem handleInput_vy (f : Farmer) (i : Input) :
    (f.handleInput i).vy =
      (boolNum (i.keys.contains "ArrowDown") - boolNum (i.keys.contains "ArrowUp")) * f.speed :=
  rfl

theorem updatePowerUps_fields (f : Farmer) (dt : ℚ) :
    (f.updatePowerUps dt).x = f.x ∧ (f.updatePowerUps dt).y = f.y ∧
    (f.updatePowerUps dt).w = f.w ∧ (f.updatePowerUps dt).h = f.h ∧
    (f.updatePowerUps dt).vx = f.vx ∧ (f.updatePowerUps dt).vy = f.vy ∧
    (f.updatePowerUps dt).baseSpeed = f.baseSpeed :=
  ⟨rfl, rfl, rfl, rfl, rfl, rfl, rfl⟩

theorem addPowerUp_fields (f : Farmer) (p : PowerUp) :
    (f.addPowerUp p).x = f.x ∧ (f.addPowerUp p).y = f.y ∧
    (f.addPowerUp p).w = f.w ∧ (f.addPowerUp p).h = f.h ∧
    (f.addPowerUp p).speed = f.speed ∧ (f.addPowerUp p).hasScythe = f.hasScythe :=
  ⟨rfl, rfl, rfl, rfl, rfl, rfl⟩

theorem foldl_addPowerUp_x (l : List PowerUp) :
    ∀ f : Farmer, (l.foldl Farmer.addPowerUp f).x = f.x := by
  induction l with
  | nil => intro f; rfl
  | cons p t ih => intro f; rw [List.foldl_cons, ih]; rfl

theorem foldl_addPowerUp_y (l : List PowerUp) :
    ∀ f : Farmer, (l.foldl Farmer.addPowerUp f).y = f.y := by
  induction l with
  | nil => intro f; rfl
  | cons p t ih => intro f; rw [List.foldl_cons, ih]; rfl

/-- The four fields of the game state that the spawning section can never
touch and that the later claims track through it. -/
def sview (g : Game) : Farmer × ℚ × ℚ × ℚ × State :=
  (g.player, g.score, g.goal, g.timeLeft, g.state)

theorem spawnCrop_sview (g : Game) (rs : List ℚ) :
    sview (Game.spawnCrop g rs).1 = sview g := rfl

theorem spawnPowerUp_sview (g : Game) (rs : List ℚ) :
    sview (Game.spawnPowerUp g rs).1 = sview g := rfl

theorem runCropSpawns_sview (n : ℕ) :
    ∀ p : Game × List ℚ, sview (Game.runCropSpawns n p).1 = sview p.1 := by
  induction n with
  | zero => intro p; rfl
  | succ n ih =>
    intro p
    rcases p with ⟨g, rs⟩
    simp only [Game.runCropSpawns]
    split
    · exact (ih _).trans (spawnCrop_sview _ _)
    · rfl

theorem runPowerUpSpawns_sview (n : ℕ) :
    ∀ p : Game × List ℚ, sview (Game.runPowerUpSpawns n p).1 = sview p.1 := by
  induction n with
  | zero => intro p; rfl
  | succ n ih =>
    intro p
    rcases p with ⟨g, rs⟩
    simp only [Game.runPowerUpSpawns]
    split
    · exact (ih _).trans (spawnPowerUp_sview _ _)
    · rfl

theorem spawnPhase_sview (g : Game) (dt : ℚ) (rs : List ℚ) :
    sview (Game.spawnPhase g dt rs).1 = sview g := by
  simp only [Game.spawnPhase]
  exact (runPowerUpSpawns_sview _ _).trans (runCropSpawns_sview _ _)

theorem spawnPhase_player (g : Game) (dt : ℚ) (rs : List ℚ) :
    (Game.spawnPhase g dt rs).1.player = g.player :=
  congrArg (fun t => t.1) (spawnPhase_sview g dt rs)

theorem spawnPhase_score (g : Game) (dt : ℚ) (rs : List ℚ) :
    (Game.spawnPhase g dt rs).1.score = g.score :=
  congrArg (fun t => t.2.1) (spawnPhase_sview g dt rs)

theorem spawnPhase_goal (g : Game) (dt : ℚ) (rs : List ℚ) :
    (Game.spawnPhase g dt rs).1.goal = g.goal :=
  congrArg (fun t => t.2.2.1) (spawnPhase_sview g dt rs)

theorem spawnPhase_timeLeft (g : Game) (dt : ℚ) (rs : List ℚ) :
    (Game.spawnPhase g dt rs).1.timeLeft = g.timeLeft :=
  congrArg (fun t => t.2.2.2.1) (spawnPhase_sview g dt rs)

theorem collectCrops_eq_filter (p : Farmer) (crops : List Crop) :
    Game.collectCrops p crops = crops.filter (fun c => collectPred p c) := by
  simp only [Game.collectCrops, collectPred]
  split
  · rfl
  · rfl

theorem mem_collectCrops (p : Farmer) (crops : List Crop) (c : Crop) :
    c ∈ Game.collectCrops p crops ↔ c ∈ crops ∧ collectPred p c = true := by
  rw [collectCrops_eq_filter, List.mem_filter]

theorem cropValue_pos (c : Crop) : 0 < c.value := by
  rcases c with ⟨x, y, w, h, t, d⟩
  cases t <;> norm_num [Crop.value, cropData]

theorem cropSum_nonneg (l : List Crop) : 0 ≤ cropSum l := by
  have key : ∀ (l : List Crop) (s : ℚ), s ≤ l.foldl (fun a c => a + c.value) s := by
    intro l
    induction l with
    | nil => intro s; simp
    | cons c t ih =>
      intro s
      rw [List.foldl_cons]
      calc s ≤ s + c.value := le_add_of_nonneg_right (le_of_lt (cropValue_pos c))
        _ ≤ _ := ih _
  exact key l 0

theorem collectPhase_fixed (g : Game) :
    (Game.collectPhase g).player = g.player ∧ (Game.collectPhase g).powerUps = g.powerUps ∧
    (Game.collectPhase g).timeLeft = g.timeLeft ∧ (Game.collectPhase g).goal = g.goal ∧
    (Game.collectPhase g).obstacles = g.obstacles ∧ (Game.collectPhase g).input = g.input ∧
    (Game.collectPhase g).accumSpawn = g.accumSpawn ∧
    (Game.collectPhase g).accumPowerUpSpawn = g.accumPowerUpSpawn := by
  simp only [Game.collectPhase]
  split
  · exact ⟨rfl, rfl, rfl, rfl, rfl, rfl, rfl, rfl⟩
  · split
    · exact ⟨rfl, rfl, rfl, rfl, rfl, rfl, rfl, rfl⟩
    · exact ⟨rfl, rfl, rfl, rfl, rfl, rfl, rfl, rfl⟩

theorem collectPhase_crops (g : Game) :
    (Game.collectPhase g).crops =
      g.crops.map (fun c => if collectPred g.player c then { c with dead := true } else c) := by
  simp only [Game.collectPhase]
  split
  · rename_i hempty
    rw [collectCrops_eq_filter] at hempty
    have hnone : ∀ c ∈ g.crops, ¬(collectPred g.player c = true) := by
      intro c hc hp
      have : c ∈ g.crops.filter (fun c => collectPred g.player c) :=
        List.mem_filter.mpr ⟨hc, hp⟩
      rw [hempty] at this
      exact absurd this (List.not_mem_nil c)
    conv_lhs => rw [show g.crops = g.crops.map id from (List.map_id g.crops).symm]
    refine List.map_congr_left ?_
    intro c hc
    simp [hnone c hc]
  · split
    · rfl
    · rfl

theorem collectPhase_score (g : Game) :
    (Game.collectPhase g).score = g.score + cropSum (Game.collectCrops g.player g.crops) := by
  simp only [Game.collectPhase]
  split
  · rename_i hempty
    rw [hempty]
    simp [cropSum]
  · split
    · rfl
    · rfl

theorem collectPhase_score_ge (g : Game) : g.score ≤ (Game.collectPhase g).score := by
  rw [collectPhase_score]
  exact le_add_of_nonneg_right (cropSum_nonneg _)

theorem collectPhase_state_of_goal (g : Game)
    (hne : Game.collectCrops g.player g.crops ≠ [])
    (hwin : g.goal ≤ g.score + cropSum (Game.collectCrops g.player g.crops)) :
    (Game.collectPhase g).state = State.WIN := by
  simp only [Game.collectPhase]
  rw [if_neg hne, if_pos hwin]

theorem powerUpPhase_fixed (g : Game) :
    (Game.powerUpPhase g).state = g.state ∧ (Game.powerUpPhase g).score = g.score ∧
    (Game.powerUpPhase g).goal = g.goal ∧ (Game.powerUpPhase g).timeLeft = g.timeLeft ∧
    (Game.powerUpPhase g).crops = g.crops ∧ (Game.powerUpPhase g).pointTexts = g.pointTexts ∧
    (Game.powerUpPhase g).obstacles = g.obstacles ∧ (Game.powerUpPhase g).input = g.input := by
  simp only [Game.powerUpPhase]
  split
  · exact ⟨rfl, rfl, rfl, rfl, rfl, rfl, rfl, rfl⟩
  · exact ⟨rfl, rfl, rfl, rfl, rfl, rfl, rfl, rfl⟩

theorem powerUpPhase_player_x (g : Game) :
    (Game.powerUpPhase g).player.x = g.player.x := by
  simp only [Game.powerUpPhase]
  split
  · rfl
  · exact foldl_addPowerUp_x _ _

theorem powerUpPhase_player_y (g : Game) :
    (Game.powerUpPhase g).player.y = g.player.y := by
  simp only [Game.powerUpPhase]
  split
  · rfl
  · exact foldl_addPowerUp_y _ _

theorem cleanupPhase_fixed (g : Game) (dt : ℚ) :
    (Game.cleanupPhase g dt).state = g.state ∧ (Game.cleanupPhase g dt).score = g.score ∧
    (Game.cleanupPhase g dt).goal = g.goal ∧ (Game.cleanupPhase g dt).timeLeft = g.timeLeft ∧
    (Game.cleanupPhase g dt).player = g.player ∧
    (Game.cleanupPhase g dt).obstacles = g.obstacles ∧
    (Game.cleanupPhase g dt).input = g.input :=
  ⟨rfl, rfl, rfl, rfl, rfl, rfl, rfl⟩

theorem cleanupPhase_crops (g : Game) (dt : ℚ) :
    (Game.cleanupPhase g dt).crops = g.crops.filter (fun c => !c.dead) := rfl

theorem stepPlayer_fixed (g : Game) (dt : ℚ) :
    (Game.stepPlayer g dt).state = g.state ∧ (Game.stepPlayer g dt).score = g.score ∧
    (Game.stepPlayer g dt).goal = g.goal ∧ (Game.stepPlayer g dt).timeLeft = g.timeLeft ∧
    (Game.stepPlayer g dt).crops = g.crops ∧ (Game.stepPlayer g dt).powerUps = g.powerUps ∧
    (Game.stepPlayer g dt).obstacles = g.obstacles ∧ (Game.stepPlayer g dt).input = g.input :=
  ⟨rfl, rfl, rfl, rfl, rfl, rfl, rfl, rfl⟩

theorem update_not_playing (g : Game) (dt : ℚ) (rs : List ℚ)
    (h : g.state ≠ State.PLAYING) : Game.update g dt rs = (g, rs) := by
  simp only [Game.update]
  rw [if_pos h]

theorem update_expiry (g : Game) (dt : ℚ) (rs : List ℚ)
    (h : g.state = State.PLAYING) (h2 : g.timeLeft - dt ≤ 0) :
    Game.update g dt rs =
      ({ g with
          timeLeft := 0,
          state := (if g.goal ≤ g.score then State.WIN else State.GAME_OVER) }, rs) := by
  simp only [Game.update]
  rw [if_neg (by simp [h]), clamp_of_nonpos h2, if_pos le_rfl]

theorem update_playing (g : Game) (dt : ℚ) (rs : List ℚ)
    (h : g.state = State.PLAYING) (h2 : 0 < g.timeLeft - dt) :
    Game.update g dt rs =
      Game.simFrame { g with timeLeft := clamp (g.timeLeft - dt) 0 GAME_LEN } dt rs := by
  simp only [Game.update]
  rw [if_neg (by simp [h]), if_neg (not_le.mpr (clamp_pos_of_pos h2))]

/-! ## Power-up map lemmas -/

theorem mem_tickEntries (dt : ℚ) (l : List (PUType × ActivePU)) (ty : PUType)
    (pu : ActivePU) :
    (ty, pu) ∈ tickEntries dt l ↔
      ∃ pu0 : ActivePU, (ty, pu0) ∈ l ∧ 0 < pu0.timeLeft - dt ∧
        pu = { pu0 with timeLeft := pu0.timeLeft - dt } := by
  induction l with
  | nil => simp [tickEntries]
  | cons e rest ih =>
    rcases e with ⟨ty2, pu2⟩
    simp only [tickEntries]
    split
    · rename_i hdrop
      rw [ih]
      constructor
      · rintro ⟨pu0, hmem, hpos, hval⟩
        exact ⟨pu0, List.mem_cons_of_mem _ hmem, hpos, hval⟩
      · rintro ⟨pu0, hmem, hpos, hval⟩
        rcases List.mem_cons.mp hmem with hhead | htail
        · exfalso
          have h2 : pu0 = pu2 := congrArg Prod.snd hhead
          rw [h2] at hpos
          exact absurd hdrop (not_le.mpr hpos)
        · exact ⟨pu0, htail, hpos, hval⟩
    · rename_i hkeep
      rw [List.mem_cons, ih]
      constructor
      · rintro (hhead | ⟨pu0, hmem, hpos, hval⟩)
        · have hty : ty = ty2 := congrArg Prod.fst hhead
          have hpu : pu = { pu2 with timeLeft := pu2.timeLeft - dt } :=
            congrArg Prod.snd hhead
          refine ⟨pu2, ?_, not_le.mp hkeep, hpu⟩
          rw [hty]
          exact List.mem_cons_self _ _
        · exact ⟨pu0, List.mem_cons_of_mem _ hmem, hpos, hval⟩
      · rintro ⟨pu0, hmem, hpos, hval⟩
        rcases List.mem_cons.mp hmem with hhead | htail
        · left
          have hty : ty = ty2 := congrArg Prod.fst hhead
          have hpu : pu0 = pu2 := congrArg Prod.snd hhead
          rw [hval, hty, hpu]
        · right
          exact ⟨pu0, htail, hpos, hval⟩

theorem tickEntries_timeLeft_pos (dt : ℚ) (l : List (PUType × ActivePU)) :
    ∀ e ∈ tickEntries dt l, 0 < e.2.timeLeft := by
  intro e he
  rcases e with ⟨ty, pu⟩
  rcases (mem_tickEntries dt l ty pu).mp he with ⟨pu0, _, hpos, hval⟩
  rw [hval]
  exact hpos

theorem tickEntries_keys_sublist (dt : ℚ) (l : List (PUType × ActivePU)) :
    ((tickEntries dt l).map Prod.fst).Sublist (l.map Prod.fst) := by
  induction l with
  | nil => simp [tickEntries]
  | cons e rest ih =>
    rcases e with ⟨ty2, pu2⟩
    simp only [tickEntries]
    split
    · exact ih.trans (List.sublist_cons_self _ _)
    · simpa using ih.cons₂ ty2

theorem tickEntries_keys_nodup (dt : ℚ) (l : List (PUType × ActivePU))
    (h : (l.map Prod.fst).Nodup) : ((tickEntries dt l).map Prod.fst).Nodup :=
  h.sublist (tickEntries_keys_sublist dt l)

theorem speedFold_of_no_speed (base : ℚ) (l : List (PUType × ActivePU))
    (h : ∀ pu : ActivePU, (PUType.speed, pu) ∉ l) (a : ℚ) :
    l.foldl
      (fun sp e =>
        match e.1 with
        | PUType.speed => base * e.2.data.multiplier
        | PUType.scythe => sp) a = a := by
  induction l generalizing a with
  | nil => rfl
  | cons e rest ih =>
    rcases e with ⟨ty, pu⟩
    cases ty
    · exact absurd (List.mem_cons_self _ _) (fun hc => h pu hc)
    · rw [List.foldl_cons]
      exact ih (fun pu2 hc => h pu2 (List.mem_cons_of_mem _ hc)) a

theorem speedFold_char (base : ℚ) (l : List (PUType × ActivePU))
    (hnd : (l.map Prod.fst).Nodup) :
    ((∀ pu : ActivePU, (PUType.speed, pu) ∉ l) ∧
      l.foldl
        (fun sp e =>
          match e.1 with
          | PUType.speed => base * e.2.data.multiplier
          | PUType.scythe => sp) base = base) ∨
    (∃ pu : ActivePU, (PUType.speed, pu) ∈ l ∧
      l.foldl
        (fun sp e =>
          match e.1 with
          | PUType.speed => base * e.2.data.multiplier
          | PUType.scythe => sp) base = base * pu.data.multiplier) := by
  induction l with
  | nil => left; exact ⟨by simp, rfl⟩
  | cons e rest ih =>
    rcases e with ⟨ty, pu⟩
    rw [List.map_cons, List.nodup_cons] at hnd
    cases ty
    · right
      have hno : ∀ pu2 : ActivePU, (PUType.speed, pu2) ∉ rest := by
        intro pu2 hc
        exact hnd.1 (List.mem_map.mpr ⟨(PUType.speed, pu2), hc, rfl⟩)
      refine ⟨pu, List.mem_cons_self _ _, ?_⟩
      rw [List.foldl_cons]
      exact speedFold_of_no_speed base rest hno _
    · rcases ih hnd.2 with ⟨hno, heq⟩ | ⟨pu2, hmem, heq⟩
      · left
        constructor
        · intro pu2 hc
          rcases List.mem_cons.mp hc with hhead | htail
          · exact PUType.noConfusion (congrArg Prod.fst hhead)
          · exact hno pu2 htail
        · rw [List.foldl_cons]
          exact heq
      · right
        refine ⟨pu2, List.mem_cons_of_mem _ hmem, ?_⟩
        rw [List.foldl_cons]
        exact heq

theorem any_scythe_iff (l : List (PUType × ActivePU)) :
    (l.any fun e => e.1 == PUType.scythe) = true ↔
      ∃ pu : ActivePU, (PUType.scythe, pu) ∈ l := by
  rw [List.any_eq_true]
  constructor
  · rintro ⟨e, hmem, hsc⟩
    rcases e with ⟨ty, pu⟩
    have hty : ty = PUType.scythe := by simpa using hsc
    exact ⟨pu, hty ▸ hmem⟩
  · rintro ⟨pu, hmem⟩
    exact ⟨(PUType.scythe, pu), hmem, by simp⟩

theorem mem_setAssoc_self (k : PUType) (v : ActivePU) (l : List (PUType × ActivePU)) :
    (k, v) ∈ setAssoc k v l := by
  induction l with
  | nil => simp [setAssoc]
  | cons e rest ih =>
    rcases e with ⟨k2, v2⟩
    simp only [setAssoc]
    split
    · exact List.mem_cons_self _ _
    · exact List.mem_cons_of_mem _ ih

theorem mem_setAssoc_ne (k : PUType) (v : ActivePU) (l : List (PUType × ActivePU))
    (ty : PUType) (pu : ActivePU) (hne : ty ≠ k) :
    (ty, pu) ∈ setAssoc k v l ↔ (ty, pu) ∈ l := by
  induction l with
  | nil =>
    simp only [setAssoc, List.mem_singleton, List.not_mem_nil, iff_false]
    intro hc
    exact hne (congrArg Prod.fst hc)
  | cons e rest ih =>
    rcases e with ⟨k2, v2⟩
    simp only [setAssoc]
    split
    · rename_i hk
      rw [List.mem_cons, List.mem_cons]
      constructor
      · rintro (hhead | htail)
        · exact absurd (congrArg Prod.fst hhead) hne
        · exact Or.inr htail
      · rintro (hhead | htail)
        · exact absurd ((congrArg Prod.fst hhead).trans hk) hne
        · exact Or.inr htail
    · rw [List.mem_cons, List.mem_cons, ih]

theorem setAssoc_keys_nodup (k : PUType) (v : ActivePU) (l : List (PUType × ActivePU))
    (h : (l.map Prod.fst).Nodup) : ((setAssoc k v l).map Prod.fst).Nodup := by
  induction l with
  | nil => simp [setAssoc]
  | cons e rest ih =>
    rcases e with ⟨k2, v2⟩
    rw [List.map_cons, List.nodup_cons] at h
    simp only [setAssoc]
    split
    · rename_i hk
      rw [List.map_cons, List.nodup_cons]
      refine ⟨?_, h.2⟩
      intro hc
      apply h.1
      rw [hk]
      exact hc
    · rename_i hk
      rw [List.map_cons, List.nodup_cons]
      constructor
      · intro hc
        rcases List.mem_map.mp hc with ⟨e2, hmem2, hfst⟩
        rcases e2 with ⟨k3, v3⟩
        by_cases hk3 : k3 = k
        · apply hk
          have hfst2 : k3 = k2 := hfst
          exact hfst2 ▸ hk3
        · have hm3 : (k3, v3) ∈ rest := (mem_setAssoc_ne k v rest k3 v3 hk3).mp hmem2
          exact h.1 (List.mem_map.mpr ⟨(k3, v3), hm3, hfst⟩)
      · exact ih h.2

theorem setAssoc_key_unique (k : PUType) (v : ActivePU) (l : List (PUType × ActivePU))
    (h : (l.map Prod.fst).Nodup) :
    ∀ pu : ActivePU, (k, pu) ∈ setAssoc k v l → pu = v := by
  induction l with
  | nil =>
    intro pu hmem
    simp only [setAssoc, List.mem_singleton] at hmem
    exact congrArg Prod.snd hmem
  | cons e rest ih =>
    rcases e with ⟨k2, v2⟩
    rw [List.map_cons, List.nodup_cons] at h
    intro pu hmem
    simp only [setAssoc] at hmem
    split at hmem
    · rename_i hk
      rcases List.mem_cons.mp hmem with hhead | htail
      · exact congrArg Prod.snd hhead
      · exfalso
        apply h.1
        rw [hk]
        exact List.mem_map.mpr ⟨(k, pu), htail, rfl⟩
    · rename_i hk
      rcases List.mem_cons.mp hmem with hhead | htail
      · exact absurd (congrArg Prod.fst hhead).symm hk
      · exact ih h.2 pu htail

/-! ## Movement lemmas -/

theorem farmerUpdate_eq (f : Farmer) (dt : ℚ) (obs : List Scarecrow) :
    Farmer.update f dt obs =
      (if obs.any (fun o => aabb (proposedMove f dt) o.rect) then
        { f.updatePowerUps dt with x := f.x, y := f.y }
      else
        { f.updatePowerUps dt with
            x := (proposedMove f dt).x, y := (proposedMove f dt).y }) := rfl

theorem farmerUpdate_w (f : Farmer) (dt : ℚ) (obs : List Scarecrow) :
    (Farmer.update f dt obs).w = f.w := by
  rw [farmerUpdate_eq]
  split
  · rfl
  · rfl

theorem farmerUpdate_h (f : Farmer) (dt : ℚ) (obs : List Scarecrow) :
    (Farmer.update f dt obs).h = f.h := by
  rw [farmerUpdate_eq]
  split
  · rfl
  · rfl

theorem farmerUpdate_blocked (f : Farmer) (dt : ℚ) (obs : List Scarecrow)
    (h : (obs.any fun o => aabb (proposedMove f dt) o.rect) = true) :
    (Farmer.update f dt obs).x = f.x ∧ (Farmer.update f dt obs).y = f.y := by
  rw [farmerUpdate_eq, if_pos h]
  exact ⟨rfl, rfl⟩

theorem farmerUpdate_free (f : Farmer) (dt : ℚ) (obs : List Scarecrow)
    (h : (obs.any fun o => aabb (proposedMove f dt) o.rect) = false) :
    (Farmer.update f dt obs).x = (proposedMove f dt).x ∧
    (Farmer.update f dt obs).y = (proposedMove f dt).y := by
  rw [farmerUpdate_eq, if_neg (by simp [h])]
  exact ⟨rfl, rfl⟩

theorem farmerUpdate_no_overlap (f : Farmer) (dt : ℚ) (obs : List Scarecrow)
    (hclear : ∀ o ∈ obs, aabb f.rect o.rect = false) :
    ∀ o ∈ obs, aabb (Farmer.update f dt obs).rect o.rect = false := by
  intro o ho
  rcases hb : (obs.any fun o => aabb (proposedMove f dt) o.rect) with hfalse | htrue
  · have hfree := farmerUpdate_free f dt obs hb
    have hrect : (Farmer.update f dt obs).rect = proposedMove f dt := by
      rcases hfree with ⟨hx, hy⟩
      simp only [Farmer.rect, hx, hy, farmerUpdate_w, farmerUpdate_h]
      rfl
    rw [hrect]
    have := List.any_eq_false.mp hb o ho
    simpa using this
  · have hblocked := farmerUpdate_blocked f dt obs hb
    have hrect : (Farmer.update f dt obs).rect = f.rect := by
      rcases hblocked with ⟨hx, hy⟩
      simp only [Farmer.rect, hx, hy, farmerUpdate_w, farmerUpdate_h]
    rw [hrect]
    exact hclear o ho

/-! ## Frame-level field lemmas -/

theorem simFrame_timeLeft (g : Game) (dt : ℚ) (rs : List ℚ) :
    (Game.simFrame g dt rs).1.timeLeft = g.timeLeft := by
  simp only [Game.simFrame]
  rw [(cleanupPhase_fixed _ _).2.2.2.1, (powerUpPhase_fixed _).2.2.2.1,
    (collectPhase_fixed _).2.2.1, spawnPhase_timeLeft, (stepPlayer_fixed _ _).2.2.2.1]

theorem simFrame_score (g : Game) (dt : ℚ) (rs : List ℚ) :
    g.score ≤ (Game.simFrame g dt rs).1.score := by
  simp only [Game.simFrame]
  rw [(cleanupPhase_fixed _ _).2.1, (powerUpPhase_fixed _).2.1]
  calc g.score = (Game.spawnPhase (Game.stepPlayer g dt) dt rs).1.score := by
        rw [spawnPhase_score, (stepPlayer_fixed _ _).2.1]
    _ ≤ _ := collectPhase_score_ge _

theorem update_score_mono (g : Game) (dt : ℚ) (rs : List ℚ) :
    g.score ≤ (Game.update g dt rs).1.score := by
  by_cases hst : g.state = State.PLAYING
  · by_cases ht : g.timeLeft - dt ≤ 0
    · rw [update_expiry g dt rs hst ht]
    · have he := update_playing g dt rs hst (not_le.mp ht)
      have h2 : g.score ≤
          (Game.simFrame { g with timeLeft := clamp (g.timeLeft - dt) 0 GAME_LEN } dt rs).1.score :=
        simFrame_score { g with timeLeft := clamp (g.timeLeft - dt) 0 GAME_LEN } dt rs
      exact le_of_le_of_eq h2 (congrArg (fun p : Game × List ℚ => p.1.score) he).symm
  · rw [update_not_playing g dt rs hst]

theorem runFrames_score_mono (frames : List (ℚ × List ℚ)) :
    ∀ g : Game, g.score ≤ (Game.runFrames g frames).score := by
  induction frames with
  | nil => intro g; exact le_rfl
  | cons fr t ih =>
    intro g
    calc g.score ≤ (Game.update g fr.1 fr.2).1.score := update_score_mono _ _ _
      _ ≤ _ := ih _

/-! ## Sample states used by witnesses and counterexamples -/

/-- A mid-round PLAYING state with a nonzero score. -/
def gPlaying : Game :=
  { state := State.PLAYING,
    player := Farmer.new 433 460,
    crops := [],
    powerUps := [],
    obstacles := [Scarecrow.new 200 220, Scarecrow.new 650 160],
    pointTexts := [],
    timeLeft := 30,
    accumSpawn := 0,
    accumPowerUpSpawn := 0,
    score := 7,
    goal := 15,
    input := ⟨[]⟩ }

/-- The same state parked in the MENU. -/
def gMenu : Game := { gPlaying with state := State.MENU }

/-- The same state paused. -/
def gPaused : Game := { gPlaying with state := State.PAUSED }

/-! ## Claim theorems -/

/-- Claim C1, counterexample: `Game.reset` has no state guard, so invoking
reset in PLAYING — a state for which the specification lists no reset
transition — changes the state to MENU and wipes the score, instead of
being a no-op. -/
theorem C1_reset_not_noop_counterexample :
    gPlaying.state = State.PLAYING ∧
    (Game.reset gPlaying).state = State.MENU ∧
    (Game.reset gPlaying).score ≠ gPlaying.score := by
  refine ⟨rfl, rfl, ?_⟩
  intro hc
  have : (0 : ℚ) = 7 := hc
  norm_num at this

/-- Claim C1 as amended: pause/resume in MENU, GAME_OVER or WIN is a no-op
and start in PLAYING is a no-op, but reset is effective in every state
(always resetting entities/score/timer and entering MENU), and start is
effective not only in MENU but also in GAME_OVER and WIN (where it resets
and begins play) and in PAUSED (where it resumes without resetting). -/
theorem C1_command_transitions (g : Game) :
    (g.state = State.PLAYING → Game.start g = g) ∧
    ((g.state = State.MENU ∨ g.state = State.GAME_OVER ∨ g.state = State.WIN) →
      Game.togglePause g = g) ∧
    ((g.state = State.MENU ∨ g.state = State.GAME_OVER ∨ g.state = State.WIN) →
      Game.start g = { Game.reset g with state := State.PLAYING }) ∧
    (g.state = State.PAUSED → Game.start g = { g with state := State.PLAYING }) ∧
    (g.state = State.PLAYING → Game.togglePause g = { g with state := State.PAUSED }) ∧
    (g.state = State.PAUSED → Game.togglePause g = { g with state := State.PLAYING }) ∧
    ((Game.reset g).state = State.MENU ∧ (Game.reset g).score = 0 ∧
      (Game.reset g).timeLeft = GAME_LEN ∧ (Game.reset g).crops = [] ∧
      (Game.reset g).powerUps = [] ∧ (Game.reset g).pointTexts = [] ∧
      (Game.reset g).player = Farmer.new (WIDTH / 2 - 17) (HEIGHT - 80) ∧
      (Game.reset g).obstacles = [Scarecrow.new 200 220, Scarecrow.new 650 160]) := by
  cases hst : g.state <;>
    simp [Game.start, Game.togglePause, Game.reset, hst]

/-- Claim C1 witness: each amended transition exercised on a concrete state. -/
theorem C1_command_transitions_witness :
    Game.start gPlaying = gPlaying ∧
    Game.togglePause gMenu = gMenu ∧
    Game.start gMenu = { Game.reset gMenu with state := State.PLAYING } ∧
    Game.start gPaused = { gPaused with state := State.PLAYING } ∧
    Game.togglePause gPlaying = { gPlaying with state := State.PAUSED } ∧
    Game.togglePause gPaused = { gPaused with state := State.PLAYING } ∧
    (Game.reset gPlaying).score = 0 :=
  ⟨(C1_command_transitions gPlaying).1 rfl,
   (C1_command_transitions gMenu).2.1 (Or.inl rfl),
   (C1_command_transitions gMenu).2.2.1 (Or.inl rfl),
   (C1_command_transitions gPaused).2.2.2.1 rfl,
   (C1_command_transitions gPlaying).2.2.2.2.1 rfl,
   (C1_command_transitions gPaused).2.2.2.2.2.1 rfl,
   (C1_command_transitions gPlaying).2.2.2.2.2.2.2.1⟩

/-- Claim C5: if the proposed (clamped) move overlaps any obstacle, both
coordinates revert to their pre-move values; otherwise the move stands; and
a player who starts a frame clear of every obstacle ends the movement step
clear of every obstacle. -/
theorem C5_obstacle_revert (f : Farmer) (dt : ℚ) (obs : List Scarecrow) :
    ((obs.any fun o => aabb (proposedMove f dt) o.rect) = true →
      (Farmer.update f dt obs).x = f.x ∧ (Farmer.update f dt obs).y = f.y) ∧
    ((obs.any fun o => aabb (proposedMove f dt) o.rect) = false →
      (Farmer.update f dt obs).x = (proposedMove f dt).x ∧
      (Farmer.update f dt obs).y = (proposedMove f dt).y) ∧
    ((∀ o ∈ obs, aabb f.rect o.rect = false) →
      ∀ o ∈ obs, aabb (Farmer.update f dt obs).rect o.rect = false) :=
  ⟨fun h => farmerUpdate_blocked f dt obs h,
   fun h => farmerUpdate_free f dt obs h,
   fun h => farmerUpdate_no_overlap f dt obs h⟩

/-- A farmer one step left of the first scarecrow, moving right fast enough
to overlap it. -/
def fNearObstacle : Farmer := { Farmer.new 160 220 with vx := 260 }

/-- Claim C5 witness: the concrete farmer starts clear, proposes an
overlapping move, and reverts to its pre-move position, ending clear. -/
theorem C5_obstacle_revert_witness :
    (([Scarecrow.new 200 220].any fun o =>
        aabb (proposedMove fNearObstacle (1/10)) o.rect) = true) ∧
    (∀ o ∈ [Scarecrow.new 200 220], aabb fNearObstacle.rect o.rect = false) ∧
    (Farmer.update fNearObstacle (1/10) [Scarecrow.new 200 220]).x = fNearObstacle.x ∧
    (Farmer.update fNearObstacle (1/10) [Scarecrow.new 200 220]).y = fNearObstacle.y ∧
    (∀ o ∈ [Scarecrow.new 200 220],
      aabb (Farmer.update fNearObstacle (1/10) [Scarecrow.new 200 220]).rect o.rect = false) := by
  have hany : ([Scarecrow.new 200 220].any fun o =>
      aabb (proposedMove fNearObstacle (1/10)) o.rect) = true := by
    norm_num [proposedMove, aabb, clamp, fNearObstacle, Farmer.new, Scarecrow.new,
      Scarecrow.rect, WIDTH, HEIGHT]
  have hclear : ∀ o ∈ [Scarecrow.new 200 220], aabb fNearObstacle.rect o.rect = false := by
    intro o ho
    rw [List.mem_singleton] at ho
    subst ho
    norm_num [aabb, fNearObstacle, Farmer.new, Farmer.rect, Scarecrow.new, Scarecrow.rect]
  refine ⟨hany, hclear, ?_, ?_, ?_⟩
  · exact ((C5_obstacle_revert fNearObstacle (1/10) [Scarecrow.new 200 220]).1 hany).1
  · exact ((C5_obstacle_revert fNearObstacle (1/10) [Scarecrow.new 200 220]).1 hany).2
  · exact (C5_obstacle_revert fNearObstacle (1/10) [Scarecrow.new 200 220]).2.2 hclear

/-- Claim C7: a frame update outside PLAYING returns the state (and the
random oracle) unchanged, and the score never decreases across one frame or
across any sequence of frames. -/
theorem C7_score_monotone (g : Game) (dt : ℚ) (rs : List ℚ)
    (frames : List (ℚ × List ℚ)) :
    (g.state ≠ State.PLAYING → Game.update g dt rs = (g, rs)) ∧
    g.score ≤ (Game.update g dt rs).1.score ∧
    g.score ≤ (Game.runFrames g frames).score :=
  ⟨update_not_playing g dt rs, update_score_mono g dt rs, runFrames_score_mono frames g⟩

/-- Claim C7 witness: a MENU-state frame is a strict no-op and the scores
are monotone on the concrete states. -/
theorem C7_score_monotone_witness :
    gMenu.state ≠ State.PLAYING ∧
    Game.update gMenu (1/100) [] = (gMenu, []) ∧
    gPlaying.score ≤ (Game.update gPlaying (1/100) []).1.score := by
  have hne : gMenu.state ≠ State.PLAYING := by
    intro hc
    exact State.noConfusion hc
  exact ⟨hne, (C7_score_monotone gMenu (1/100) [] []).1 hne,
    (C7_score_monotone gPlaying (1/100) [] []).2.1⟩

/-- Claim C8: reset followed by start always lands in the same canonical
initial playing configuration — score 0, full timer, empty transient
collections, the fixed player start position and the fixed two scarecrows —
regardless of the state it is invoked from. -/
theorem C8_reset_start_canonical (g : Game) :
    Game.start (Game.reset g) =
      { g with
        state := State.PLAYING,
        player := Farmer.new (WIDTH / 2 - 17) (HEIGHT - 80),
        crops := [],
        powerUps := [],
        obstacles := [Scarecrow.new 200 220, Scarecrow.new 650 160],
        pointTexts := [],
        score := 0,
        timeLeft := GAME_LEN,
        accumSpawn := 0,
        accumPowerUpSpawn := 0 } := by
  simp [Game.start, Game.reset]

/-- Claim C2: the active power-up map keeps at most one entry per kind
(`addPowerUp` replaces the entry of its own kind and leaves other kinds
untouched), and after the per-frame recomputation every surviving timer is
strictly positive, the scythe flag holds exactly when an unexpired scythe
entry exists, and the speed is the boosted value exactly when an unexpired
speed entry exists (base speed otherwise) — so no effect outlives its
timer. -/
theorem C2_powerup_invariant (f : Farmer) (dt : ℚ) (p : PowerUp)
    (hnd : (f.activePowerUps.map Prod.fst).Nodup) :
    (((f.updatePowerUps dt).activePowerUps.map Prod.fst).Nodup ∧
      (∀ e ∈ (f.updatePowerUps dt).activePowerUps, 0 < e.2.timeLeft) ∧
      ((f.updatePowerUps dt).hasScythe = true ↔
        ∃ pu : ActivePU, (PUType.scythe, pu) ∈ (f.updatePowerUps dt).activePowerUps) ∧
      ((∃ pu : ActivePU, (PUType.speed, pu) ∈ (f.updatePowerUps dt).activePowerUps ∧
          (f.updatePowerUps dt).speed = f.baseSpeed * pu.data.multiplier) ∨
        ((∀ pu : ActivePU, (PUType.speed, pu) ∉ (f.updatePowerUps dt).activePowerUps) ∧
          (f.updatePowerUps dt).speed = f.baseSpeed))) ∧
    (((f.addPowerUp p).activePowerUps.map Prod.fst).Nodup ∧
      (p.type, { timeLeft := p.duration, data := p.data }) ∈ (f.addPowerUp p).activePowerUps ∧
      (∀ pu : ActivePU, (p.type, pu) ∈ (f.addPowerUp p).activePowerUps →
        pu = { timeLeft := p.duration, data := p.data }) ∧
      (∀ (ty : PUType) (pu : ActivePU), ty ≠ p.type →
        ((ty, pu) ∈ (f.addPowerUp p).activePowerUps ↔ (ty, pu) ∈ f.activePowerUps))) := by
  refine ⟨⟨?_, ?_, ?_, ?_⟩, ?_, ?_, ?_, ?_⟩
  · exact tickEntries_keys_nodup dt f.activePowerUps hnd
  · exact tickEntries_timeLeft_pos dt f.activePowerUps
  · exact any_scythe_iff (tickEntries dt f.activePowerUps)
  · exact Or.symm (speedFold_char f.baseSpeed (tickEntries dt f.activePowerUps)
      (tickEntries_keys_nodup dt f.activePowerUps hnd))
  · exact setAssoc_keys_nodup p.type _ f.activePowerUps hnd
  · exact mem_setAssoc_self p.type _ f.activePowerUps
  · exact setAssoc_key_unique p.type _ f.activePowerUps hnd
  · intro ty pu hne
    exact mem_setAssoc_ne p.type _ f.activePowerUps ty pu hne

/-- A farmer carrying one active speed boost. -/
def fBoosted : Farmer :=
  { Farmer.new 10 10 with
    activePowerUps := [(PUType.speed, { timeLeft := 5, data := powerData PUType.speed })] }

/-- Claim C2 witness: the invariant instantiated on a farmer with a single
speed-boost entry, ticked by one second and handed a scythe pickup. -/
theorem C2_powerup_invariant_witness :
    (fBoosted.activePowerUps.map Prod.fst).Nodup ∧
    (∀ e ∈ (fBoosted.updatePowerUps 1).activePowerUps, 0 < e.2.timeLeft) ∧
    ((PUType.scythe,
        { timeLeft := (PowerUp.new 0 0 PUType.scythe).duration,
          data := (PowerUp.new 0 0 PUType.scythe).data }) ∈
      (fBoosted.addPowerUp (PowerUp.new 0 0 PUType.scythe)).activePowerUps) := by
  have hnd : (fBoosted.activePowerUps.map Prod.fst).Nodup := by
    simp [fBoosted, Farmer.new]
  exact ⟨hnd,
    (C2_powerup_invariant fBoosted 1 (PowerUp.new 0 0 PUType.scythe) hnd).1.2.1,
    (C2_powerup_invariant fBoosted 1 (PowerUp.new 0 0 PUType.scythe) hnd).2.2.1⟩

theorem floor_mul_bounds (r : ℚ) (z : ℤ) (hz : 0 < z) (h1 : 0 ≤ r) (h2 : r < 1) :
    0 ≤ ⌊r * (z : ℚ)⌋ ∧ ⌊r * (z : ℚ)⌋ < z := by
  constructor
  · refine Int.floor_nonneg.mpr (mul_nonneg h1 ?_)
    exact_mod_cast hz.le
  · apply Int.floor_lt.mpr
    have hzq : (0 : ℚ) < (z : ℚ) := by exact_mod_cast hz
    have := mul_lt_mul_of_pos_right h2 hzq
    simpa using this

theorem gxProps (r : ℚ) (h1 : 0 ≤ r) (h2 : r < 1) :
    (∃ i : ℤ, 0 ≤ i ∧
      (⌊r * ((WIDTH - 2 * TILE) / TILE)⌋ : ℚ) * TILE + TILE = (i : ℚ) * TILE + TILE) ∧
    TILE ≤ (⌊r * ((WIDTH - 2 * TILE) / TILE)⌋ : ℚ) * TILE + TILE ∧
    (⌊r * ((WIDTH - 2 * TILE) / TILE)⌋ : ℚ) * TILE + TILE < WIDTH - TILE := by
  have e1 : ((WIDTH - 2 * TILE) / TILE : ℚ) = (28 : ℚ) := by norm_num [WIDTH, TILE]
  rw [e1]
  have hb := floor_mul_bounds r 28 (by norm_num) h1 h2
  rw [show ((28 : ℤ) : ℚ) = (28 : ℚ) by norm_num] at hb
  have hq0 : (0 : ℚ) ≤ (⌊r * (28 : ℚ)⌋ : ℚ) := by exact_mod_cast hb.1
  have hq27 : (⌊r * (28 : ℚ)⌋ : ℚ) ≤ 27 := by
    have hz : ⌊r * (28 : ℚ)⌋ ≤ 27 := by omega
    exact_mod_cast hz
  refine ⟨⟨⌊r * (28 : ℚ)⌋, hb.1, rfl⟩, ?_, ?_⟩
  · have hm := mul_nonneg hq0 (show (0 : ℚ) ≤ TILE by norm_num [TILE])
    norm_num [TILE] at hm ⊢
    linarith
  · norm_num [TILE, WIDTH]
    linarith

theorem gyProps (r : ℚ) (h1 : 0 ≤ r) (h2 : r < 1) :
    (∃ j : ℤ, 0 ≤ j ∧
      (⌊r * ((HEIGHT - 2 * TILE) / TILE)⌋ : ℚ) * TILE + TILE = (j : ℚ) * TILE + TILE) ∧
    TILE ≤ (⌊r * ((HEIGHT - 2 * TILE) / TILE)⌋ : ℚ) * TILE + TILE ∧
    (⌊r * ((HEIGHT - 2 * TILE) / TILE)⌋ : ℚ) * TILE + TILE < HEIGHT - TILE := by
  have e1 : ((HEIGHT - 2 * TILE) / TILE : ℚ) = (16 : ℚ) := by norm_num [HEIGHT, TILE]
  rw [e1]
  have hb := floor_mul_bounds r 16 (by norm_num) h1 h2
  rw [show ((16 : ℤ) : ℚ) = (16 : ℚ) by norm_num] at hb
  have hq0 : (0 : ℚ) ≤ (⌊r * (16 : ℚ)⌋ : ℚ) := by exact_mod_cast hb.1
  have hq15 : (⌊r * (16 : ℚ)⌋ : ℚ) ≤ 15 := by
    have hz : ⌊r * (16 : ℚ)⌋ ≤ 15 := by omega
    exact_mod_cast hz
  refine ⟨⟨⌊r * (16 : ℚ)⌋, hb.1, rfl⟩, ?_, ?_⟩
  · have hm := mul_nonneg hq0 (show (0 : ℚ) ≤ TILE by norm_num [TILE])
    norm_num [TILE] at hm ⊢
    linarith
  · norm_num [TILE, HEIGHT]
    linarith

/-- Claim C10: every spawned crop and power-up lands on a grid point
(an integer multiple of the tile size, offset by one tile) strictly inside
the one-tile playfield margin, for every value of the random source in
`[0,1)`. -/
theorem C10_spawn_grid (g : Game) (r1 r2 r3 : ℚ) (rs : List ℚ)
    (h1 : 0 ≤ r1) (h2 : r1 < 1) (h3 : 0 ≤ r2) (h4 : r2 < 1) :
    (∃ c : Crop,
      (Game.spawnCrop g (r1 :: r2 :: r3 :: rs)).1.crops = g.crops ++ [c] ∧
      (∃ i : ℤ, 0 ≤ i ∧ c.x = (i : ℚ) * TILE + TILE) ∧
      (∃ j : ℤ, 0 ≤ j ∧ c.y = (j : ℚ) * TILE + TILE) ∧
      TILE ≤ c.x ∧ c.x < WIDTH - TILE ∧ TILE ≤ c.y ∧ c.y < HEIGHT - TILE) ∧
    (∃ q : PowerUp,
      (Game.spawnPowerUp g (r1 :: r2 :: r3 :: rs)).1.powerUps = g.powerUps ++ [q] ∧
      (∃ i : ℤ, 0 ≤ i ∧ q.x = (i : ℚ) * TILE + TILE) ∧
      (∃ j : ℤ, 0 ≤ j ∧ q.y = (j : ℚ) * TILE + TILE) ∧
      TILE ≤ q.x ∧ q.x < WIDTH - TILE ∧ TILE ≤ q.y ∧ q.y < HEIGHT - TILE) := by
  obtain ⟨⟨i, hi0, hieq⟩, hxlo, hxhi⟩ := gxProps r1 h1 h2
  obtain ⟨⟨j, hj0, hjeq⟩, hylo, hyhi⟩ := gyProps r2 h3 h4
  constructor
  · refine ⟨_, rfl, ⟨i, hi0, ?_⟩, ⟨j, hj0, ?_⟩, ?_, ?_, ?_, ?_⟩
    · exact hieq
    · exact hjeq
    · exact hxlo
    · exact hxhi
    · exact hylo
    · exact hyhi
  · refine ⟨_, rfl, ⟨i, hi0, ?_⟩, ⟨j, hj0, ?_⟩, ?_, ?_, ?_, ?_⟩
    · exact hieq
    · exact hjeq
    · exact hxlo
    · exact hxhi
    · exact hylo
    · exact hyhi

/-- Claim C10 witness: the bounds instantiated at the random draws
1/2 and 1/3 (and 1/4 for the rarity draw). -/
theorem C10_spawn_grid_witness :
    ((0 : ℚ) ≤ 1/2 ∧ (1/2 : ℚ) < 1 ∧ (0 : ℚ) ≤ 1/3 ∧ (1/3 : ℚ) < 1) ∧
    (∃ c : Crop,
      (Game.spawnCrop gMenu ((1/2) :: (1/3) :: (1/4) :: [])).1.crops = gMenu.crops ++ [c] ∧
      (∃ i : ℤ, 0 ≤ i ∧ c.x = (i : ℚ) * TILE + TILE) ∧
      (∃ j : ℤ, 0 ≤ j ∧ c.y = (j : ℚ) * TILE + TILE) ∧
      TILE ≤ c.x ∧ c.x < WIDTH - TILE ∧ TILE ≤ c.y ∧ c.y < HEIGHT - TILE) :=
  ⟨⟨by norm_num, by norm_num, by norm_num, by norm_num⟩,
   (C10_spawn_grid gMenu (1/2) (1/3) (1/4) [] (by norm_num) (by norm_num)
      (by norm_num) (by norm_num)).1⟩

theorem inScytheRange_iff (p : Farmer) (c : Crop) :
    inScytheRange p c = true ↔
      ((p.x + p.w / 2) - (c.x + c.w / 2)) * ((p.x + p.w / 2) - (c.x + c.w / 2)) +
        ((p.y + p.h / 2) - (c.y + c.h / 2)) * ((p.y + p.h / 2) - (c.y + c.h / 2)) ≤
        80 * 80 := by
  simp [inScytheRange]

theorem simFrame_fst (g1 : Game) (dt : ℚ) (rs : List ℚ) :
    (Game.simFrame g1 dt rs).1 =
      Game.cleanupPhase
        (Game.powerUpPhase
          (Game.collectPhase
            (Game.spawnPhase (Game.stepPlayer g1 dt) dt rs).1)) dt := rfl

/-- Claim C4: every PLAYING frame advances the timer to
`max 0 (timeLeft - dt)`, and the frame in which it reaches zero resolves
WIN (score at goal) or GAME_OVER (otherwise) while leaving every other
component of the state untouched. -/
theorem C4_timer_clamp (g : Game) (dt : ℚ) (rs : List ℚ)
    (hst : g.state = State.PLAYING) (hdt : 0 ≤ dt) (htl : g.timeLeft ≤ GAME_LEN) :
    (Game.update g dt rs).1.timeLeft = max 0 (g.timeLeft - dt) ∧
    (g.timeLeft - dt ≤ 0 →
      Game.update g dt rs =
        ({ g with
            timeLeft := 0,
            state := (if g.goal ≤ g.score then State.WIN else State.GAME_OVER) }, rs)) := by
  have hsub : g.timeLeft - dt ≤ GAME_LEN := by linarith
  constructor
  · by_cases ht : g.timeLeft - dt ≤ 0
    · have he := update_expiry g dt rs hst ht
      have e : (Game.update g dt rs).1.timeLeft = (0 : ℚ) :=
        congrArg (fun p : Game × List ℚ => p.1.timeLeft) he
      rw [e]
      exact (max_eq_left ht).symm
    · have he := update_playing g dt rs hst (not_le.mp ht)
      have e : (Game.update g dt rs).1.timeLeft =
          (Game.simFrame { g with timeLeft := clamp (g.timeLeft - dt) 0 GAME_LEN } dt rs).1.timeLeft :=
        congrArg (fun p : Game × List ℚ => p.1.timeLeft) he
      rw [e, simFrame_timeLeft { g with timeLeft := clamp (g.timeLeft - dt) 0 GAME_LEN } dt rs]
      exact clamp_eq_max hsub
  · exact update_expiry g dt rs hst

/-- A PLAYING state whose timer is about to expire with the score short of
the goal. -/
def gTimer : Game := { gPlaying with timeLeft := 1/100, score := 10 }

/-- Claim C4 witness: on the concrete near-expiry state, the frame zeroes
the timer, resolves the round and changes nothing else. -/
theorem C4_timer_clamp_witness :
    gTimer.state = State.PLAYING ∧ (0 : ℚ) ≤ 1/10 ∧ gTimer.timeLeft ≤ GAME_LEN ∧
    gTimer.timeLeft - 1/10 ≤ 0 ∧
    Game.update gTimer (1/10) [] =
      ({ gTimer with
          timeLeft := 0,
          state := (if gTimer.goal ≤ gTimer.score then State.WIN else State.GAME_OVER) }, []) := by
  have h1 : (0 : ℚ) ≤ 1/10 := by norm_num
  have h2 : gTimer.timeLeft ≤ GAME_LEN := by norm_num [gTimer, gPlaying, GAME_LEN]
  have h3 : gTimer.timeLeft - 1/10 ≤ 0 := by norm_num [gTimer, gPlaying]
  exact ⟨rfl, h1, h2, h3, (C4_timer_clamp gTimer (1/10) [] rfl h1 h2).2 h3⟩

/-- Claim C3: in a PLAYING frame whose timer has not expired, if the crop
collection of that frame (evaluated on the post-movement, post-spawning
state `h`) is nonempty and lifts the score to the goal, the frame ends in
WIN regardless of the remaining timer. -/
theorem C3_win_on_goal (g : Game) (dt : ℚ) (rs : List ℚ) (h : Game) (rs2 : List ℚ)
    (hst : g.state = State.PLAYING) (ht : 0 < g.timeLeft - dt)
    (hsp : Game.spawnPhase
        (Game.stepPlayer { g with timeLeft := clamp (g.timeLeft - dt) 0 GAME_LEN } dt) dt rs
      = (h, rs2))
    (hne : Game.collectCrops h.player h.crops ≠ [])
    (hwin : g.goal ≤ g.score + cropSum (Game.collectCrops h.player h.crops)) :
    (Game.update g dt rs).1.state = State.WIN := by
  have he := update_playing g dt rs hst ht
  have e1 : (Game.update g dt rs).1.state =
      (Game.simFrame { g with timeLeft := clamp (g.timeLeft - dt) 0 GAME_LEN } dt rs).1.state :=
    congrArg (fun p : Game × List ℚ => p.1.state) he
  have e3 : (Game.spawnPhase
      (Game.stepPlayer { g with timeLeft := clamp (g.timeLeft - dt) 0 GAME_LEN } dt) dt rs).1 = h :=
    congrArg Prod.fst hsp
  rw [e1, simFrame_fst, e3, (cleanupPhase_fixed _ _).1, (powerUpPhase_fixed _).1]
  apply collectPhase_state_of_goal h hne
  have hgoal : h.goal = g.goal := by
    rw [← e3, spawnPhase_goal]
    rfl
  have hscore : h.score = g.score := by
    rw [← e3, spawnPhase_score]
    rfl
  rw [hgoal, hscore]
  exact hwin

/-- Claim C6: in a PLAYING frame (with post-movement, post-spawning state
`h`), the collected set is exactly the crops whose center is within 80
units of the player's center when the area-collect effect is active, and
exactly the crops whose bounding box strictly overlaps the player's
otherwise; the frame then removes exactly the collected (and previously
dead) crops. -/
theorem C6_collect_rule (g : Game) (dt : ℚ) (rs : List ℚ) (h : Game) (rs2 : List ℚ)
    (hst : g.state = State.PLAYING) (ht : 0 < g.timeLeft - dt)
    (hsp : Game.spawnPhase
        (Game.stepPlayer { g with timeLeft := clamp (g.timeLeft - dt) 0 GAME_LEN } dt) dt rs
      = (h, rs2)) :
    (h.player.hasScythe = true →
      ∀ c : Crop, c ∈ Game.collectCrops h.player h.crops ↔
        c ∈ h.crops ∧
          ((h.player.x + h.player.w / 2) - (c.x + c.w / 2)) *
              ((h.player.x + h.player.w / 2) - (c.x + c.w / 2)) +
            ((h.player.y + h.player.h / 2) - (c.y + c.h / 2)) *
              ((h.player.y + h.player.h / 2) - (c.y + c.h / 2)) ≤ 80 * 80) ∧
    (h.player.hasScythe = false →
      ∀ c : Crop, c ∈ Game.collectCrops h.player h.crops ↔
        c ∈ h.crops ∧
          (h.player.x < c.x + c.w ∧ h.player.x + h.player.w > c.x ∧
            h.player.y < c.y + c.h ∧ h.player.y + h.player.h > c.y)) ∧
    (Game.update g dt rs).1.crops =
      (h.crops.map
        (fun c => if collectPred h.player c then { c with dead := true } else c)).filter
        (fun c => !c.dead) := by
  refine ⟨?_, ?_, ?_⟩
  · intro hsc c
    rw [mem_collectCrops]
    have hpred : collectPred h.player c = inScytheRange h.player c := by
      simp [collectPred, hsc]
    rw [hpred, inScytheRange_iff]
  · intro hsc c
    rw [mem_collectCrops]
    have hpred : collectPred h.player c = aabb h.player.rect c.rect := by
      simp [collectPred, hsc]
    rw [hpred, aabb_iff]
    simp [Farmer.rect, Crop.rect, and_assoc]
  · have he := update_playing g dt rs hst ht
    have e1 : (Game.update g dt rs).1.crops =
        (Game.simFrame { g with timeLeft := clamp (g.timeLeft - dt) 0 GAME_LEN } dt rs).1.crops :=
      congrArg (fun p : Game × List ℚ => p.1.crops) he
    have e3 : (Game.spawnPhase
        (Game.stepPlayer { g with timeLeft := clamp (g.timeLeft - dt) 0 GAME_LEN } dt) dt rs).1 = h :=
      congrArg Prod.fst hsp
    rw [e1, simFrame_fst, e3, cleanupPhase_crops, (powerUpPhase_fixed _).2.2.2.2.1,
      collectPhase_crops]

theorem handle_update_pos (f : Farmer) (i : Input) (dt : ℚ) (obs : List Scarecrow) :
    ((Farmer.update (f.handleInput i) dt obs).x,
     (Farmer.update (f.handleInput i) dt obs).y) = movedPos f i obs dt := by
  have hpm : proposedMove (f.handleInput i) dt =
      (⟨clamp (f.x + (boolNum (i.keys.contains "ArrowRight") -
            boolNum (i.keys.contains "ArrowLeft")) * f.speed * dt) 0 (WIDTH - f.w),
        clamp (f.y + (boolNum (i.keys.contains "ArrowDown") -
            boolNum (i.keys.contains "ArrowUp")) * f.speed * dt) 0 (HEIGHT - f.h),
        f.w, f.h⟩ : Rect) := rfl
  rw [farmerUpdate_eq]
  simp only [movedPos]
  simp only [← hpm]
  by_cases hc : (obs.any fun o => aabb (proposedMove (f.handleInput i) dt) o.rect) = true
  · rw [if_pos hc, if_pos hc]
    rfl
  · rw [if_neg hc, if_neg hc]
    rfl

theorem simFrame_player_pos (g1 : Game) (dt : ℚ) (rs : List ℚ) :
    ((Game.simFrame g1 dt rs).1.player.x, (Game.simFrame g1 dt rs).1.player.y) =
      movedPos g1.player g1.input g1.obstacles dt := by
  have hP := handle_update_pos g1.player g1.input dt g1.obstacles
  have hPx : (Farmer.update (g1.player.handleInput g1.input) dt g1.obstacles).x =
      (movedPos g1.player g1.input g1.obstacles dt).1 := congrArg Prod.fst hP
  have hPy : (Farmer.update (g1.player.handleInput g1.input) dt g1.obstacles).y =
      (movedPos g1.player g1.input g1.obstacles dt).2 := congrArg Prod.snd hP
  have cx : (Game.simFrame g1 dt rs).1.player.x =
      (movedPos g1.player g1.input g1.obstacles dt).1 := by
    rw [simFrame_fst, (cleanupPhase_fixed _ _).2.2.2.2.1, powerUpPhase_player_x,
      (collectPhase_fixed _).1, spawnPhase_player]
    exact hPx
  have cy : (Game.simFrame g1 dt rs).1.player.y =
      (movedPos g1.player g1.input g1.obstacles dt).2 := by
    rw [simFrame_fst, (cleanupPhase_fixed _ _).2.2.2.2.1, powerUpPhase_player_y,
      (collectPhase_fixed _).1, spawnPhase_player]
    exact hPy
  rw [cx, cy]

/-- Claim C9: the displacement a PLAYING frame applies to the player is
computed from the speed field present when the frame starts (the previous
frame's recomputation): `handleInput` runs before `updatePowerUps`, so the
resulting position is `movedPos` of the pre-frame speed, and changing the
active power-up map (which changes the speed recomputed inside the frame)
cannot change this frame's resulting position. -/
theorem C9_speed_lag (g : Game) (dt : ℚ) (rs : List ℚ)
    (hst : g.state = State.PLAYING) (ht : 0 < g.timeLeft - dt) :
    (((Game.update g dt rs).1.player.x, (Game.update g dt rs).1.player.y) =
      movedPos g.player g.input g.obstacles dt) ∧
    ∀ l : List (PUType × ActivePU),
      ((Game.update { g with player := { g.player with activePowerUps := l } } dt rs).1.player.x,
       (Game.update { g with player := { g.player with activePowerUps := l } } dt rs).1.player.y) =
        movedPos g.player g.input g.obstacles dt := by
  have main : ∀ g2 : Game, g2.state = State.PLAYING → 0 < g2.timeLeft - dt →
      ((Game.update g2 dt rs).1.player.x, (Game.update g2 dt rs).1.player.y) =
        movedPos g2.player g2.input g2.obstacles dt := by
    intro g2 hst2 ht2
    have he := update_playing g2 dt rs hst2 ht2
    have ex : (Game.update g2 dt rs).1.player.x =
        (Game.simFrame { g2 with timeLeft := clamp (g2.timeLeft - dt) 0 GAME_LEN } dt rs).1.player.x :=
      congrArg (fun p : Game × List ℚ => p.1.player.x) he
    have ey : (Game.update g2 dt rs).1.player.y =
        (Game.simFrame { g2 with timeLeft := clamp (g2.timeLeft - dt) 0 GAME_LEN } dt rs).1.player.y :=
      congrArg (fun p : Game × List ℚ => p.1.player.y) he
    rw [ex, ey]
    exact simFrame_player_pos { g2 with timeLeft := clamp (g2.timeLeft - dt) 0 GAME_LEN } dt rs
  refine ⟨main g hst ht, ?_⟩
  intro l
  exact main { g with player := { g.player with activePowerUps := l } } hst ht

/-- Score 0, goal 15, five rare (golden-apple) crops stacked under the
player — the spec's win scenario. -/
def gRare : Game :=
  { state := State.PLAYING,
    player := Farmer.new 433 460,
    crops := [Crop.new 433 460 CropType.goldenApple, Crop.new 440 460 CropType.goldenApple,
              Crop.new 433 470 CropType.goldenApple, Crop.new 440 470 CropType.goldenApple,
              Crop.new 436 465 CropType.goldenApple],
    powerUps := [],
    obstacles := [Scarecrow.new 200 220, Scarecrow.new 650 160],
    pointTexts := [],
    timeLeft := 30,
    accumSpawn := 0,
    accumPowerUpSpawn := 0,
    score := 0,
    goal := 15,
    input := ⟨[]⟩ }

/-- The post-movement, post-spawning state of the `gRare` frame. -/
def hRare : Game :=
  (Game.spawnPhase
    (Game.stepPlayer { gRare with timeLeft := clamp (gRare.timeLeft - 1/100) 0 GAME_LEN }
      (1/100)) (1/100) []).1

/-- Claim C3 witness: collecting the five golden apples (5 points each)
from score 0 with goal 15 ends the frame in WIN with the timer still
running. -/
theorem C3_win_on_goal_witness :
    gRare.state = State.PLAYING ∧ 0 < gRare.timeLeft - 1/100 ∧
    Game.collectCrops hRare.player hRare.crops ≠ [] ∧
    gRare.goal ≤ gRare.score + cropSum (Game.collectCrops hRare.player hRare.crops) ∧
    (Game.update gRare (1/100) []).1.state = State.WIN := by
  have ht : 0 < gRare.timeLeft - (1:ℚ)/100 := by norm_num [gRare]
  have hne : Game.collectCrops hRare.player hRare.crops ≠ [] := by
    norm_num [hRare, gRare, Game.spawnPhase, Game.stepPlayer, Game.runCropSpawns,
      Game.runPowerUpSpawns, Game.spawnCrop, Game.spawnPowerUp, cropSpawnFuel,
      powerUpSpawnFuel, Game.collectCrops, collectPred, inScytheRange, cropSum, aabb,
      clamp, Farmer.update, Farmer.updatePowerUps, Farmer.handleInput, tickEntries,
      rnd, boolNum, Farmer.new, Crop.new, Farmer.rect, Crop.rect, Scarecrow.rect,
      Scarecrow.new, WIDTH, HEIGHT, TILE, GAME_LEN, spawnEvery, powerUpSpawnEvery,
      List.cons_ne_nil, ne_eq]
  have hwin : gRare.goal ≤ gRare.score + cropSum (Game.collectCrops hRare.player hRare.crops) := by
    norm_num [hRare, gRare, Game.spawnPhase, Game.stepPlayer, Game.runCropSpawns,
      Game.runPowerUpSpawns, Game.spawnCrop, Game.spawnPowerUp, cropSpawnFuel,
      powerUpSpawnFuel, Game.collectCrops, collectPred, inScytheRange, cropSum, aabb,
      clamp, Farmer.update, Farmer.updatePowerUps, Farmer.handleInput, tickEntries,
      rnd, boolNum, Farmer.new, Crop.new, Crop.value, cropData, Farmer.rect, Crop.rect,
      Scarecrow.rect, Scarecrow.new, WIDTH, HEIGHT, TILE, GAME_LEN, spawnEvery,
      powerUpSpawnEvery, List.cons_ne_nil, ne_eq]
  exact ⟨rfl, ht, hne, hwin,
    C3_win_on_goal gRare (1/100) [] hRare _ rfl ht rfl hne hwin⟩

/-- A player with an active scythe (area-collect) effect. -/
def fScythe : Farmer :=
  { Farmer.new 433 460 with
    activePowerUps := [(PUType.scythe, { timeLeft := 5, data := powerData PUType.scythe })] }

/-- A PLAYING state whose player holds an unexpired scythe, with one crop
in radius range but not in box-overlap range. -/
def gScythe : Game :=
  { state := State.PLAYING,
    player := fScythe,
    crops := [Crop.new 500 460 CropType.wheat],
    powerUps := [],
    obstacles := [Scarecrow.new 200 220, Scarecrow.new 650 160],
    pointTexts := [],
    timeLeft := 30,
    accumSpawn := 0,
    accumPowerUpSpawn := 0,
    score := 0,
    goal := 15,
    input := ⟨[]⟩ }

/-- The post-movement, post-spawning state of the `gScythe` frame. -/
def hScythe : Game :=
  (Game.spawnPhase
    (Game.stepPlayer { gScythe with timeLeft := clamp (gScythe.timeLeft - 1/100) 0 GAME_LEN }
      (1/100)) (1/100) []).1

/-- Claim C6 witness: with the scythe active, the frame's collected set is
exactly the radius-based one, and the frame removes exactly the marked
crops. -/
theorem C6_collect_rule_witness :
    gScythe.state = State.PLAYING ∧ 0 < gScythe.timeLeft - 1/100 ∧
    hScythe.player.hasScythe = true ∧
    (∀ c : Crop, c ∈ Game.collectCrops hScythe.player hScythe.crops ↔
      c ∈ hScythe.crops ∧
        ((hScythe.player.x + hScythe.player.w / 2) - (c.x + c.w / 2)) *
            ((hScythe.player.x + hScythe.player.w / 2) - (c.x + c.w / 2)) +
          ((hScythe.player.y + hScythe.player.h / 2) - (c.y + c.h / 2)) *
            ((hScythe.player.y + hScythe.player.h / 2) - (c.y + c.h / 2)) ≤ 80 * 80) ∧
    (Game.update gScythe (1/100) []).1.crops =
      (hScythe.crops.map
        (fun c => if collectPred hScythe.player c then { c with dead := true } else c)).filter
        (fun c => !c.dead) := by
  have ht : 0 < gScythe.timeLeft - (1:ℚ)/100 := by norm_num [gScythe]
  have hthm := C6_collect_rule gScythe (1/100) [] hScythe _ rfl ht rfl
  have hsc : hScythe.player.hasScythe = true := by
    norm_num [hScythe, gScythe, fScythe, Game.spawnPhase, Game.stepPlayer,
      Game.runCropSpawns, Game.runPowerUpSpawns, Game.spawnCrop, Game.spawnPowerUp,
      cropSpawnFuel, powerUpSpawnFuel, aabb, clamp, Farmer.update, Farmer.updatePowerUps,
      Farmer.handleInput, tickEntries, rnd, boolNum, Farmer.new, Crop.new, Farmer.rect,
      Crop.rect, Scarecrow.rect, Scarecrow.new, powerData, WIDTH, HEIGHT, TILE, GAME_LEN,
      spawnEvery, powerUpSpawnEvery, List.cons_ne_nil, ne_eq]
  exact ⟨rfl, ht, hsc, hthm.1 hsc, hthm.2.2⟩

/-- A PLAYING state with the right-arrow key held. -/
def gArrow : Game := { gPlaying with input := ⟨["ArrowRight"]⟩ }

/-- Claim C9 witness: the frame's resulting player position equals
`movedPos` of the pre-frame speed on the concrete state. -/
theorem C9_speed_lag_witness :
    gArrow.state = State.PLAYING ∧ 0 < gArrow.timeLeft - 1/100 ∧
    ((Game.update gArrow (1/100) []).1.player.x,
     (Game.update gArrow (1/100) []).1.player.y) =
      movedPos gArrow.player gArrow.input gArrow.obstacles (1/100) := by
  have ht : 0 < gArrow.timeLeft - (1:ℚ)/100 := by norm_num [gArrow, gPlaying]
  exact ⟨rfl, ht, (C9_speed_lag gArrow (1/100) [] rfl ht).1⟩
